import Mathlib

/-!
Verification of the rvi_lib core (connection / credential / service-registry /
message-dispatch engine) against its natural-language specification.

The repository ships the public header `src/rvi.h`, which fixes the status
codes and the signatures of the public operations; the C implementation file
is not part of the sources available here, so the behaviour of each operation
is modelled from the specification text (see the doc comments starting
`Modelled from the spec:`).  Side effects are made explicit: socket writes are
a trace of `(fd, message)` pairs, callback invocations are a trace of
`(fd, callback, data, parameters)` tuples, and the dispatcher records which
descriptors it has processed.
-/

/-- Function return status codes, from `src/rvi.h` lines 51-63. -/
inductive rvi_status where
  | RVI_OK
  | RVI_ERR_OPENSSL
  | RVI_ERR_NOCONFIG
  | RVI_ERR_JSON
  | RVI_ERR_SERVCERT
  | RVI_ERR_CLIENTCERT
  | RVI_ERR_NORCVCERT
  | RVI_ERR_STREAMEND
  | RVI_ERR_NOCRED
  | RVI_ERR_NOCMD
  | RVI_ERR_RIGHTS
deriving DecidableEq

/-- The numeric value of each status code, from `src/rvi.h` lines 51-63. -/
def rvi_status.code : rvi_status → Nat
  | .RVI_OK => 0
  | .RVI_ERR_OPENSSL => 100
  | .RVI_ERR_NOCONFIG => 1001
  | .RVI_ERR_JSON => 1002
  | .RVI_ERR_SERVCERT => 1003
  | .RVI_ERR_CLIENTCERT => 1004
  | .RVI_ERR_NORCVCERT => 1005
  | .RVI_ERR_STREAMEND => 1006
  | .RVI_ERR_NOCRED => 1007
  | .RVI_ERR_NOCMD => 1008
  | .RVI_ERR_RIGHTS => 1009

/-- Modelled from the spec: a fully-qualified service name is a sequence of
slash-delimited segments (the implementation file holding the name handling is
missing from the sources); we represent a name by its list of segments. -/
abbrev ServiceName := List String

/-- Modelled from the spec: the direction of a right, `invoke` or `register`
(spec section 3, Credential). -/
inductive Direction where
  | invoke
  | register
deriving DecidableEq

/-- Modelled from the spec: a right is a (service-name pattern, direction)
pair; a pattern is a sequence of segments where a segment may be the glob
`*` (spec section 3 and glossary). -/
structure Right where
  pattern : List String
  dir : Direction
deriving DecidableEq

/-- Modelled from the spec: pattern matching with prefix-or-glob semantics
over slash-delimited name segments (spec section 4.2): every pattern segment
must equal the corresponding name segment or be the glob `*`, and the pattern
may be a proper prefix of the name. -/
def patternMatches : List String → ServiceName → Bool
  | [], _ => true
  | _ :: _, [] => false
  | p :: ps, n :: ns => (p == "*" || p == n) && patternMatches ps ns

/-- Modelled from the spec: a verified credential with its validity window
(not-before / not-after, as timestamps) and its list of rights (spec
section 3, Credential). -/
structure Credential where
  issuer : String
  notBefore : Nat
  notAfter : Nat
  rights : List Right
deriving DecidableEq

/-- Modelled from the spec: `covers(credential, service_name, direction)` is
true iff the credential is not expired at the current time `t` and some right
in its list has a pattern matching the name and the matching direction (spec
sections 3 and 4.2).  The expiry test is part of every call, so rights are
re-evaluated on each authorization decision. -/
def covers (c : Credential) (t : Nat) (name : ServiceName) (d : Direction) : Bool :=
  (decide (c.notBefore ≤ t) && decide (t ≤ c.notAfter)) &&
    c.rights.any (fun r => r.dir == d && patternMatches r.pattern name)

/-- Modelled from the spec: `covers` lifted to an optional credential — a peer
that has presented no credential has no rights. -/
def coversOpt (oc : Option Credential) (t : Nat) (name : ServiceName) (d : Direction) : Bool :=
  match oc with
  | some c => covers c t name d
  | none => false

/-- Modelled from the spec: connection states, spec section 4.1. -/
inductive ConnState where
  | Connecting
  | Handshaking
  | ExchangingCredentials
  | Active
  | Closed
deriving DecidableEq

/-- Position of a state in the progression of spec section 4.1. -/
def stateIdx : ConnState → Nat
  | .Connecting => 0
  | .Handshaking => 1
  | .ExchangingCredentials => 2
  | .Active => 3
  | .Closed => 4

/-- Modelled from the spec: the allowed state transitions of spec section 4.1
— the successor steps of the chain, plus a direct step to `Closed` from any
non-terminal state. -/
def stepAllowed : ConnState → ConnState → Bool
  | .Connecting, .Handshaking => true
  | .Handshaking, .ExchangingCredentials => true
  | .ExchangingCredentials, .Active => true
  | .Connecting, .Closed => true
  | .Handshaking, .Closed => true
  | .ExchangingCredentials, .Closed => true
  | .Active, .Closed => true
  | _, _ => false

/-- Modelled from the spec: a service-registry entry is either a local entry
(callback reference and opaque user data, the callback modelled by an
identifier) or a remote entry naming the owning connection's descriptor
(spec section 3, ServiceEntry). -/
inductive ServiceEntry where
  | localEntry (callback : Nat) (data : String)
  | remoteEntry (fd : Nat)
deriving DecidableEq

/-- Modelled from the spec: protocol messages, spec section 3 (Message) and
section 4.4.  The credential-exchange payload carries the claims extracted by
the external verify primitive, `none` when the blob is absent, malformed or
unverifiable. -/
inductive Message where
  | handshakeHello
  | credentialExchange (claims : Option Credential)
  | serviceAnnounce (name : ServiceName)
  | serviceUnannounce (name : ServiceName)
  | invokeMsg (name : ServiceName) (params : String)
  | ping
deriving DecidableEq

/-- Modelled from the spec: a decoded wire frame — the kind tag of the binary
envelope together with its optional fields (spec section 4.4).  A complete
frame has already passed length reassembly; parameters are carried as an
opaque structured-value blob. -/
structure Frame where
  kind : Nat
  sname : Option ServiceName
  params : Option String
  claims : Option Credential
deriving DecidableEq

/-- Modelled from the spec: decoding of a complete frame into a message
(spec section 4.4).  Kind tags 0-5 are the six message kinds; any other kind
is unrecognized and yields `none`, as does a missing mandatory field (the
service name for announce, unannounce and invoke). -/
def decodeFrame (f : Frame) : Option Message :=
  match f.kind with
  | 0 => some .handshakeHello
  | 1 => some (.credentialExchange f.claims)
  | 2 => f.sname.map .serviceAnnounce
  | 3 => f.sname.map .serviceUnannounce
  | 4 => (f.sname.map fun n => .invokeMsg n (f.params.getD ""))
  | 5 => some .ping
  | _ => none

/-- Modelled from the spec: one peer connection — descriptor, current state,
the peer's verified credential set (absent until credential exchange
completes), and the queue of complete inbound frames pending on its socket
(spec section 3, Connection). -/
structure Connection where
  fd : Nat
  state : ConnState
  cred : Option Credential
  inbox : List Frame
deriving DecidableEq

/-- Modelled from the spec: the top-level Context — node identifier, the
local node's own credential, the connection table, and the combined
local+remote service registry (spec section 3, Context).  The `sent`,
`invoked` and `processed` fields are explicit traces of the side effects:
messages written to sockets, callback invocations, and the descriptors the
dispatcher has processed. -/
structure Context where
  nodeId : String
  ownCred : Credential
  conns : List Connection
  registry : List (ServiceName × ServiceEntry)
  sent : List (Nat × Message)
  invoked : List (Nat × Nat × String × String)
  processed : List Nat
deriving DecidableEq

/-- Look up a name in the registry (spec section 4.3, `lookup`). -/
def regLookup (reg : List (ServiceName × ServiceEntry)) (n : ServiceName) :
    Option ServiceEntry :=
  (reg.find? (fun p => p.1 == n)).map Prod.snd

/-- Insert an entry, replacing any prior owner of the same name (last writer
wins; spec section 3 invariant and section 4.3). -/
def regInsert (reg : List (ServiceName × ServiceEntry)) (n : ServiceName)
    (e : ServiceEntry) : List (ServiceName × ServiceEntry) :=
  (n, e) :: reg.filter (fun p => !(p.1 == n))

/-- Look up a name and return its local callback and data when the entry is a
local one (spec section 4.5, invoke routing). -/
def localLookup (reg : List (ServiceName × ServiceEntry)) (n : ServiceName) :
    Option (Nat × String) :=
  match regLookup reg n with
  | some (.localEntry cb d) => some (cb, d)
  | _ => none

/-- The registry holds at most one entry per name: its list of names has no
duplicate (spec section 3 invariant). -/
def UniqueNames (reg : List (ServiceName × ServiceEntry)) : Prop :=
  (reg.map Prod.fst).Nodup

/-- Modelled from the spec: qualify a service name with the local node
identifier if not already prefixed with it (header lines 156-158, spec
section 4.3). -/
def qualify (nodeId : String) (name : ServiceName) : ServiceName :=
  if name.head? == some nodeId then name else nodeId :: name

/-- Find the connection with the given descriptor in the context. -/
def connFind (ctx : Context) (fd : Nat) : Option Connection :=
  ctx.conns.find? (fun c => c.fd == fd)

/-- The state of the connection with the given descriptor, when present. -/
def connState (ctx : Context) (fd : Nat) : Option ConnState :=
  (connFind ctx fd).map Connection.state

/-- Apply a function to the connection with the given descriptor, leaving
every other connection unchanged. -/
def updateConn (ctx : Context) (fd : Nat) (g : Connection → Connection) : Context :=
  { ctx with conns := ctx.conns.map (fun c => if c.fd == fd then g c else c) }

/-- Modelled from the spec: force the connection with descriptor `fd` to
`Closed` and remove all remote service entries it owns (spec sections 4.1
and 4.3, `on_disconnect`). -/
def closeConn (ctx : Context) (fd : Nat) : Context :=
  let ctx := updateConn ctx fd (fun c => { c with state := .Closed })
  { ctx with registry := ctx.registry.filter (fun p => !(p.2 == .remoteEntry fd)) }

/-- Modelled from the spec: handling of a remote service announcement (spec
section 4.3, `on_remote_announce`): if the peer's credential covers
`(name, invoke)`, insert a remote entry owned by the connection, replacing any
prior owner; otherwise silently drop the announcement. -/
def onRemoteAnnounce (t : Nat) (ctx : Context) (fd : Nat) (cred : Option Credential)
    (name : ServiceName) : Context :=
  if coversOpt cred t name .invoke then
    { ctx with registry := regInsert ctx.registry name (.remoteEntry fd) }
  else
    ctx

/-- Modelled from the spec: handling of a remote service unannouncement (spec
section 4.3, `on_remote_unannounce`): remove the remote entries owned by the
connection matching the name. -/
def onRemoteUnannounce (ctx : Context) (fd : Nat) (name : ServiceName) : Context :=
  { ctx with registry :=
      ctx.registry.filter (fun p => !(p.1 == name && p.2 == .remoteEntry fd)) }

/-- Modelled from the spec: routing of one decoded message for the connection
with descriptor `fd`, whose credential and current state are `cred` and `st`
(spec sections 4.1, 4.3 and 4.5).  Handshake and credential-exchange messages
drive the connection state machine; announce and unannounce go to the
registry; invoke looks up the named local service, checks the sender's rights
and invokes the callback; ping is a no-op.  A message unexpected for the
current state is a protocol violation forcing the connection to `Closed`,
while no-command and rights errors on a single invoke leave it `Active`. -/
def dispatch (t : Nat) (ctx : Context) (fd : Nat) (cred : Option Credential)
    (st : ConnState) : Message → rvi_status × Context
  | .handshakeHello =>
      if st == .Handshaking then
        (.RVI_OK, updateConn ctx fd (fun c => { c with state := .ExchangingCredentials }))
      else
        (.RVI_ERR_NOCMD, closeConn ctx fd)
  | .credentialExchange claims =>
      if st == .ExchangingCredentials then
        match claims with
        | some c =>
            if decide (c.notBefore ≤ t) && decide (t ≤ c.notAfter) then
              (.RVI_OK, updateConn ctx fd
                (fun cn => { cn with state := .Active, cred := some c }))
            else
              (.RVI_ERR_NOCRED, closeConn ctx fd)
        | none => (.RVI_ERR_NOCRED, closeConn ctx fd)
      else
        (.RVI_ERR_NOCMD, closeConn ctx fd)
  | .serviceAnnounce name =>
      if st == .Active then
        (.RVI_OK, onRemoteAnnounce t ctx fd cred name)
      else
        (.RVI_ERR_NOCMD, closeConn ctx fd)
  | .serviceUnannounce name =>
      if st == .Active then
        (.RVI_OK, onRemoteUnannounce ctx fd name)
      else
        (.RVI_ERR_NOCMD, closeConn ctx fd)
  | .invokeMsg name params =>
      if st == .Active then
        match localLookup ctx.registry name with
        | some (cb, d) =>
            if coversOpt cred t name .invoke then
              (.RVI_OK, { ctx with invoked := ctx.invoked ++ [(fd, cb, d, params)] })
            else
              (.RVI_ERR_RIGHTS, ctx)
        | none => (.RVI_ERR_NOCMD, ctx)
      else
        (.RVI_ERR_NOCMD, closeConn ctx fd)
  | .ping => (.RVI_OK, ctx)

/-- Modelled from the spec: `process_one(conn)` (spec section 4.5) — record
the descriptor as processed, read exactly one complete frame from the
connection's queue, decode it, and route it.  An unknown descriptor is an
error with no effect; an exhausted stream is a stream-end condition forcing
the connection to `Closed`; a frame with an unrecognized kind or a missing
mandatory field is a protocol violation forcing the connection to `Closed`
(spec section 4.4). -/
def rviProcessOne (t : Nat) (ctx : Context) (fd : Nat) : rvi_status × Context :=
  let ctx := { ctx with processed := ctx.processed ++ [fd] }
  match connFind ctx fd with
  | none => (.RVI_ERR_STREAMEND, ctx)
  | some conn =>
      match conn.inbox with
      | [] => (.RVI_ERR_STREAMEND, closeConn ctx fd)
      | f :: rest =>
          let ctx := updateConn ctx fd (fun c => { c with inbox := rest })
          match decodeFrame f with
          | none => (.RVI_ERR_NOCMD, closeConn ctx fd)
          | some m => dispatch t ctx fd conn.cred conn.state m

/-- Modelled from the spec: `rvi_process_input` / `process_many(fd_list)`
(header lines 241-263, spec section 4.5) — process one message for each
descriptor in the caller-provided list, continuing past per-connection
errors, and return the first error encountered, if any, after attempting all
descriptors. -/
def rviProcessInput (t : Nat) : Context → List Nat → rvi_status × Context
  | ctx, [] => (.RVI_OK, ctx)
  | ctx, fd :: rest =>
      let r := rviProcessOne t ctx fd
      let r2 := rviProcessInput t r.2 rest
      ((if r.1 == .RVI_OK then r2.1 else r.1), r2.2)

/-- The per-descriptor statuses produced by processing a descriptor list in
order. -/
def stepStatuses (t : Nat) : Context → List Nat → List rvi_status
  | _, [] => []
  | ctx, fd :: rest =>
      let r := rviProcessOne t ctx fd
      r.1 :: stepStatuses t r.2 rest

/-- The first non-OK status in a list, or OK when there is none. -/
def firstError (l : List rvi_status) : rvi_status :=
  match l.find? (fun s => !(s == .RVI_OK)) with
  | some e => e
  | none => .RVI_OK

/-- Modelled from the spec: `rvi_register_service` / `register_local` (header
lines 152-177, spec section 4.3) — qualify the name with the node identifier,
fail with a rights error if the local node's own credential does not grant
the register right for that name space, otherwise insert/replace the local
entry and send a service-announce to every `Active` connection whose peer
credential covers `(name, invoke)`. -/
def rviRegisterService (t : Nat) (ctx : Context) (name : ServiceName)
    (cb : Nat) (data : String) : rvi_status × Context :=
  let q := qualify ctx.nodeId name
  if covers ctx.ownCred t q .register then
    let targets := ctx.conns.filter
      (fun c => c.state == .Active && coversOpt c.cred t q .invoke)
    (.RVI_OK,
      { ctx with
        registry := regInsert ctx.registry q (.localEntry cb data)
        sent := ctx.sent ++ targets.map (fun c => (c.fd, Message.serviceAnnounce q)) })
  else
    (.RVI_ERR_RIGHTS, ctx)

/-- Modelled from the spec: `rvi_unregister_service` / `unregister_local`
(header lines 179-195, spec section 4.3) — remove the entry if and only if it
is local, then send service-unannounce to every `Active` connection whose
peer credential covers `(name, invoke)`; a name that is absent or owned by a
remote node yields a no-such-service error (reported as the no-command code)
with the registry untouched and nothing sent. -/
def rviUnregisterService (t : Nat) (ctx : Context) (name : ServiceName) :
    rvi_status × Context :=
  match regLookup ctx.registry name with
  | some (.localEntry _ _) =>
      let targets := ctx.conns.filter
        (fun c => c.state == .Active && coversOpt c.cred t name .invoke)
      (.RVI_OK,
        { ctx with
          registry := ctx.registry.filter (fun p => !(p.1 == name))
          sent := ctx.sent ++ targets.map (fun c => (c.fd, Message.serviceUnannounce name)) })
  | _ => (.RVI_ERR_NOCMD, ctx)

/-- Modelled from the spec: `rvi_invoke_remote_service` (header lines
213-234, spec section 2 data flow and section 8 scenario) — look up the
registry and send an encoded invoke message on the owning connection's
socket; a name that no entry resolves to yields a no-command error with no
bytes written to any socket.  The spec leaves invoking a locally owned name
through this entry point unspecified; the model treats any non-remote name as
not found, with no side effect. -/
def rviInvokeRemoteService (ctx : Context) (name : ServiceName) (params : String) :
    rvi_status × Context :=
  match regLookup ctx.registry name with
  | some (.remoteEntry fd) =>
      (.RVI_OK, { ctx with sent := ctx.sent ++ [(fd, Message.invokeMsg name params)] })
  | _ => (.RVI_ERR_NOCMD, ctx)

/-- Modelled from the spec: `rvi_get_services` (header lines 197-211, spec
section 4.3 `list_all`) — fill the caller's buffer with the qualified service
names, up to the caller-provided capacity `len`, and report the number of
strings actually written. -/
def rviGetServices (ctx : Context) (len : Nat) : List ServiceName × Nat :=
  let written := (ctx.registry.map Prod.fst).take len
  (written, written.length)

/-- Modelled from the spec: `rvi_disconnect` (header lines 120-128, spec
section 4.1) — force the connection to `Closed`, removing all of its remote
service entries from the registry; an unknown descriptor is an error with no
effect. -/
def rviDisconnect (ctx : Context) (fd : Nat) : rvi_status × Context :=
  match connFind ctx fd with
  | some _ => (.RVI_OK, closeConn ctx fd)
  | none => (.RVI_ERR_STREAMEND, ctx)

/-- One connection value advances to another when it keeps its descriptor,
never moves backward in the state order of spec section 4.1, and never leaves
the terminal `Closed` state. -/
def Advances (c0 c : Connection) : Prop :=
  c.fd = c0.fd ∧ stateIdx c0.state ≤ stateIdx c.state ∧
    (c0.state = ConnState.Closed → c.state = ConnState.Closed)

/-! ### Concrete values used by the witnesses -/

/-- Uniqueness of registry names is decidable, so witnesses can check it on
concrete registries. -/
instance (reg : List (ServiceName × ServiceEntry)) : Decidable (UniqueNames reg) :=
  List.nodupDecidable _


/-- A credential for the local node: the register right on the
`node1/diag` name space, valid from time 10 to time 20. -/
def demoOwnCred : Credential :=
  { issuer := "ca", notBefore := 10, notAfter := 20,
    rights := [{ pattern := ["node1", "diag"], dir := .register }] }

/-- A peer credential: the invoke right on everything under `node1` and
`node2`, valid from time 10 to time 20. -/
def demoPeerCred : Credential :=
  { issuer := "ca", notBefore := 10, notAfter := 20,
    rights := [{ pattern := ["node1"], dir := .invoke },
               { pattern := ["node2"], dir := .invoke }] }

/-- A small context: one `Active` peer on descriptor 5, one local service and
one remote service owned by that peer. -/
def demoCtx : Context :=
  { nodeId := "node1", ownCred := demoOwnCred,
    conns := [{ fd := 5, state := .Active, cred := some demoPeerCred, inbox := [] }],
    registry := [(["node1", "svc"], .localEntry 1 "d"),
                 (["node2", "rsvc"], .remoteEntry 5)],
    sent := [], invoked := [], processed := [] }

/-- A context with two `Active` peers (descriptors 5 and 6), a frame with an
unrecognized kind tag pending on connection 5, and remote services owned by
each peer. -/
def demoCtxTwo : Context :=
  { nodeId := "node1", ownCred := demoOwnCred,
    conns := [{ fd := 5, state := .Active, cred := some demoPeerCred,
                inbox := [{ kind := 9, sname := none, params := none, claims := none }] },
              { fd := 6, state := .Active, cred := none, inbox := [] }],
    registry := [(["node1", "svc"], .localEntry 1 "d"),
                 (["node2", "rsvc"], .remoteEntry 5),
                 (["node3", "osvc"], .remoteEntry 6)],
    sent := [], invoked := [], processed := [] }

/-! ### Registry lemmas -/

theorem registry_updateConn (ctx : Context) (fd : Nat) (g : Connection → Connection) :
    (updateConn ctx fd g).registry = ctx.registry := rfl

theorem processed_updateConn (ctx : Context) (fd : Nat) (g : Connection → Connection) :
    (updateConn ctx fd g).processed = ctx.processed := rfl

theorem registry_closeConn (ctx : Context) (fd : Nat) :
    (closeConn ctx fd).registry =
      ctx.registry.filter (fun p => !(p.2 == .remoteEntry fd)) := rfl

theorem processed_closeConn (ctx : Context) (fd : Nat) :
    (closeConn ctx fd).processed = ctx.processed := rfl

theorem uniqueNames_filter (reg : List (ServiceName × ServiceEntry))
    (p : ServiceName × ServiceEntry → Bool) (h : UniqueNames reg) :
    UniqueNames (reg.filter p) :=
  List.Nodup.sublist ((List.filter_sublist reg).map Prod.fst) h

theorem uniqueNames_regInsert (reg : List (ServiceName × ServiceEntry))
    (n : ServiceName) (e : ServiceEntry) (h : UniqueNames reg) :
    UniqueNames (regInsert reg n e) := by
  unfold UniqueNames regInsert
  simp only [List.map_cons]
  refine List.nodup_cons.mpr ⟨?_, uniqueNames_filter reg _ h⟩
  intro hmem
  rcases List.mem_map.mp hmem with ⟨p, hp, hfst⟩
  have hne := List.of_mem_filter hp
  rw [hfst] at hne
  simp at hne

theorem regLookup_regInsert_self (reg : List (ServiceName × ServiceEntry))
    (n : ServiceName) (e : ServiceEntry) :
    regLookup (regInsert reg n e) n = some e := by
  simp [regLookup, regInsert, List.find?_cons]

theorem countP_regInsert_self (reg : List (ServiceName × ServiceEntry))
    (n : ServiceName) (e : ServiceEntry) :
    (regInsert reg n e).countP (fun p => p.1 == n) = 1 := by
  unfold regInsert
  rw [List.countP_cons, List.countP_filter]
  simp

theorem countP_le_one_of_uniqueNames (reg : List (ServiceName × ServiceEntry))
    (h : UniqueNames reg) (n : ServiceName) :
    reg.countP (fun p => p.1 == n) ≤ 1 := by
  induction reg with
  | nil => simp
  | cons a l ih =>
      unfold UniqueNames at h
      rw [List.map_cons, List.nodup_cons] at h
      rw [List.countP_cons]
      rcases haq : (a.1 == n) with _ | _
      · simpa [haq] using ih h.2
      · have han : a.1 = n := by simpa using haq
        have hzero : l.countP (fun p => p.1 == n) = 0 := by
          refine List.countP_eq_zero.mpr ?_
          intro p hp hpn
          have hpn' : p.1 = n := by simpa using hpn
          exact h.1 (List.mem_map.mpr ⟨p, hp, by rw [hpn', han]⟩)
        simp [haq, hzero]

/-! ### Claim theorems -/

/-- C10: `rvi_get_services` writes at most the caller-provided capacity of
name pointers into the result buffer, and reports as the final length exactly
the number of names actually written, which never exceeds the capacity. -/
theorem C10_get_services_respects_capacity (ctx : Context) (len : Nat) :
    (rviGetServices ctx len).1.length ≤ len ∧
    (rviGetServices ctx len).2 = (rviGetServices ctx len).1.length := by
  constructor
  · simp only [rviGetServices, List.length_take]
    exact Nat.min_le_left _ _
  · rfl

/-- C3: registering a service whose name space is not covered by the local
node's own register right fails with `RVI_ERR_RIGHTS`, inserts no registry
entry and sends no service-announce message to any peer — the whole context
is returned unchanged. -/
theorem C3_register_without_right_is_rights_error (t : Nat) (ctx : Context)
    (name : ServiceName) (cb : Nat) (data : String)
    (h : covers ctx.ownCred t (qualify ctx.nodeId name) Direction.register = false) :
    rviRegisterService t ctx name cb data = (rvi_status.RVI_ERR_RIGHTS, ctx) ∧
    (rviRegisterService t ctx name cb data).2.registry = ctx.registry ∧
    (rviRegisterService t ctx name cb data).2.sent = ctx.sent := by
  have hmain : rviRegisterService t ctx name cb data = (rvi_status.RVI_ERR_RIGHTS, ctx) := by
    simp [rviRegisterService, h]
  exact ⟨hmain, by rw [hmain], by rw [hmain]⟩

/-- Witness for C3 at a concrete input: the own credential grants register
only on `node1/diag`, so registering `node2/x` is refused. -/
theorem C3_witness :
    covers demoCtx.ownCred 15 (qualify demoCtx.nodeId ["node2", "x"])
      Direction.register = false ∧
    rviRegisterService 15 demoCtx ["node2", "x"] 2 "e" =
      (rvi_status.RVI_ERR_RIGHTS, demoCtx) :=
  ⟨by decide,
   (C3_register_without_right_is_rights_error 15 demoCtx ["node2", "x"] 2 "e"
      (by decide)).1⟩

/-- C8: invoking a remote service under a name that no registry entry
resolves to returns `RVI_ERR_NOCMD`, writes no bytes to any socket, and
leaves all connection and registry state unchanged — the whole context is
returned unchanged. -/
theorem C8_invoke_unknown_name_no_command (ctx : Context) (name : ServiceName)
    (params : String) (h : regLookup ctx.registry name = none) :
    rviInvokeRemoteService ctx name params = (rvi_status.RVI_ERR_NOCMD, ctx) ∧
    (rviInvokeRemoteService ctx name params).2.sent = ctx.sent ∧
    (rviInvokeRemoteService ctx name params).2.registry = ctx.registry ∧
    (rviInvokeRemoteService ctx name params).2.conns = ctx.conns := by
  have hmain : rviInvokeRemoteService ctx name params = (rvi_status.RVI_ERR_NOCMD, ctx) := by
    simp [rviInvokeRemoteService, h]
  exact ⟨hmain, by rw [hmain], by rw [hmain], by rw [hmain]⟩

/-- Witness for C8 at a concrete input: no entry resolves
`node999/climate/set`, so invoking it is a no-command error with no bytes
written. -/
theorem C8_witness :
    regLookup demoCtx.registry ["node999", "climate", "set"] = none ∧
    rviInvokeRemoteService demoCtx ["node999", "climate", "set"] "p" =
      (rvi_status.RVI_ERR_NOCMD, demoCtx) :=
  ⟨by decide,
   (C8_invoke_unknown_name_no_command demoCtx ["node999", "climate", "set"] "p"
      (by decide)).1⟩

/-- C6: unregistering a name that is absent from the registry or owned by a
remote connection returns an error, leaves the registry exactly as it was,
and sends no message on any socket — the whole context is returned
unchanged. -/
theorem C6_unregister_nonlocal_fails_cleanly (t : Nat) (ctx : Context)
    (name : ServiceName)
    (h : regLookup ctx.registry name = none ∨
         ∃ rfd, regLookup ctx.registry name = some (.remoteEntry rfd)) :
    (rviUnregisterService t ctx name).1 = rvi_status.RVI_ERR_NOCMD ∧
    (rviUnregisterService t ctx name).1 ≠ rvi_status.RVI_OK ∧
    (rviUnregisterService t ctx name).2 = ctx := by
  have hmain : rviUnregisterService t ctx name = (rvi_status.RVI_ERR_NOCMD, ctx) := by
    rcases h with h | ⟨rfd, h⟩ <;> simp [rviUnregisterService, h]
  rw [hmain]
  exact ⟨rfl, by simp, rfl⟩

/-- Witness for C6 at a concrete input: `node2/rsvc` is owned by the remote
connection on descriptor 5, so unregistering it fails and changes nothing. -/
theorem C6_witness :
    (regLookup demoCtx.registry ["node2", "rsvc"] = none ∨
      ∃ rfd, regLookup demoCtx.registry ["node2", "rsvc"] =
        some (.remoteEntry rfd)) ∧
    (rviUnregisterService 15 demoCtx ["node2", "rsvc"]).2 = demoCtx :=
  ⟨Or.inr ⟨5, by decide⟩,
   (C6_unregister_nonlocal_fails_cleanly 15 demoCtx ["node2", "rsvc"]
      (Or.inr ⟨5, by decide⟩)).2.2⟩

/-- C2: a credential whose validity window does not contain the current time
covers no service name in either direction, and the dispatcher's
authorization decision on an invoke re-evaluates expiry at the current time:
with such a credential it reports a rights error even for an existing local
service, leaving the context (and so the connection state) unchanged. -/
theorem C2_expired_credential_covers_nothing (c : Credential) (t : Nat)
    (name : ServiceName) (d : Direction) (ctx : Context) (fd cb : Nat)
    (data : String) (sname : ServiceName) (params : String)
    (hexp : t < c.notBefore ∨ c.notAfter < t)
    (hloc : localLookup ctx.registry sname = some (cb, data)) :
    covers c t name d = false ∧
    coversOpt (some c) t name d = false ∧
    dispatch t ctx fd (some c) .Active (.invokeMsg sname params) =
      (rvi_status.RVI_ERR_RIGHTS, ctx) := by
  have hgen : ∀ (nm : ServiceName) (dd : Direction), covers c t nm dd = false := by
    intro nm dd
    rcases hexp with h | h
    · have hd : decide (c.notBefore ≤ t) = false := by
        simpa using Nat.not_le.mpr h
      simp [covers, hd]
    · have hd : decide (t ≤ c.notAfter) = false := by
        simpa using Nat.not_le.mpr h
      simp [covers, hd]
  refine ⟨hgen name d, ?_, ?_⟩
  · show covers c t name d = false
    exact hgen name d
  · simp [dispatch, hloc, coversOpt, hgen sname Direction.invoke]

/-- Witness for C2 at a concrete input: the peer credential is valid from
time 10 to 20 and the clock reads 30, so it covers nothing and an invoke of
the existing local service `node1/svc` is refused with a rights error. -/
theorem C2_witness :
    (30 < demoPeerCred.notBefore ∨ demoPeerCred.notAfter < 30) ∧
    localLookup demoCtx.registry ["node1", "svc"] = some (1, "d") ∧
    covers demoPeerCred 30 ["node1", "svc"] Direction.invoke = false ∧
    dispatch 30 demoCtx 5 (some demoPeerCred) .Active
      (.invokeMsg ["node1", "svc"] "p") = (rvi_status.RVI_ERR_RIGHTS, demoCtx) := by
  have h := C2_expired_credential_covers_nothing demoPeerCred 30 ["node1", "svc"]
    Direction.invoke demoCtx 5 1 "d" ["node1", "svc"] "p"
    (Or.inr (by decide)) (by decide)
  exact ⟨Or.inr (by decide), by decide, h.1, h.2.2⟩

/-- C4: on an `Active` connection, the dispatcher handles an inbound invoke
of an absent local service with a no-command error and an invoke the
sender's credential does not cover with a rights error; in both cases the
context is unchanged, so the connection remains `Active`. -/
theorem C4_invoke_errors_keep_connection_active (t : Nat) (ctx : Context)
    (fd : Nat) (cred : Option Credential) (n1 n2 : ServiceName) (cb : Nat)
    (data : String) (params1 params2 : String)
    (hconn : connState ctx fd = some ConnState.Active)
    (h1 : localLookup ctx.registry n1 = none)
    (h2 : localLookup ctx.registry n2 = some (cb, data))
    (h3 : coversOpt cred t n2 Direction.invoke = false) :
    dispatch t ctx fd cred .Active (.invokeMsg n1 params1) =
      (rvi_status.RVI_ERR_NOCMD, ctx) ∧
    dispatch t ctx fd cred .Active (.invokeMsg n2 params2) =
      (rvi_status.RVI_ERR_RIGHTS, ctx) ∧
    connState (dispatch t ctx fd cred .Active (.invokeMsg n1 params1)).2 fd =
      some ConnState.Active ∧
    connState (dispatch t ctx fd cred .Active (.invokeMsg n2 params2)).2 fd =
      some ConnState.Active := by
  have e1 : dispatch t ctx fd cred .Active (.invokeMsg n1 params1) =
      (rvi_status.RVI_ERR_NOCMD, ctx) := by
    simp [dispatch, h1]
  have e2 : dispatch t ctx fd cred .Active (.invokeMsg n2 params2) =
      (rvi_status.RVI_ERR_RIGHTS, ctx) := by
    simp [dispatch, h2, h3]
  exact ⟨e1, e2, by rw [e1]; exact hconn, by rw [e2]; exact hconn⟩

/-- Witness for C4 at a concrete input: on the `Active` connection 5,
invoking the absent service `nope` is a no-command error and invoking
`node1/svc` under a register-only credential is a rights error; connection 5
stays `Active` both times. -/
theorem C4_witness :
    connState demoCtx 5 = some ConnState.Active ∧
    dispatch 15 demoCtx 5 (some demoOwnCred) .Active
      (.invokeMsg ["nope"] "p") = (rvi_status.RVI_ERR_NOCMD, demoCtx) ∧
    dispatch 15 demoCtx 5 (some demoOwnCred) .Active
      (.invokeMsg ["node1", "svc"] "q") = (rvi_status.RVI_ERR_RIGHTS, demoCtx) := by
  have h := C4_invoke_errors_keep_connection_active 15 demoCtx 5
    (some demoOwnCred) ["nope"] ["node1", "svc"] 1 "d" "p" "q"
    (by decide) (by decide) (by decide) (by decide)
  exact ⟨by decide, h.1, h.2.1⟩

/-! ### Uniqueness preservation lemmas -/

theorem uniqueNames_closeConn (ctx : Context) (fd : Nat)
    (h : UniqueNames ctx.registry) : UniqueNames (closeConn ctx fd).registry :=
  uniqueNames_filter ctx.registry _ h

theorem uniqueNames_onRemoteAnnounce (t : Nat) (ctx : Context) (fd : Nat)
    (cred : Option Credential) (name : ServiceName)
    (h : UniqueNames ctx.registry) :
    UniqueNames (onRemoteAnnounce t ctx fd cred name).registry := by
  unfold onRemoteAnnounce
  split
  · exact uniqueNames_regInsert ctx.registry name _ h
  · exact h

theorem uniqueNames_onRemoteUnannounce (ctx : Context) (fd : Nat)
    (name : ServiceName) (h : UniqueNames ctx.registry) :
    UniqueNames (onRemoteUnannounce ctx fd name).registry :=
  uniqueNames_filter ctx.registry _ h

theorem uniqueNames_dispatch (t : Nat) (ctx : Context) (fd : Nat)
    (cred : Option Credential) (st : ConnState) (m : Message)
    (h : UniqueNames ctx.registry) :
    UniqueNames (dispatch t ctx fd cred st m).2.registry := by
  cases m <;> simp only [dispatch] <;> (repeat' split) <;>
    first
      | exact h
      | exact uniqueNames_closeConn _ _ h
      | exact uniqueNames_onRemoteAnnounce _ _ _ _ _ h
      | exact uniqueNames_onRemoteUnannounce _ _ _ h

theorem uniqueNames_processOne (t : Nat) (ctx : Context) (fd : Nat)
    (h : UniqueNames ctx.registry) :
    UniqueNames (rviProcessOne t ctx fd).2.registry := by
  simp only [rviProcessOne]
  (repeat' split) <;>
    first
      | exact h
      | exact uniqueNames_closeConn _ _ h
      | exact uniqueNames_dispatch _ _ _ _ _ _ h

theorem uniqueNames_processInput (t : Nat) (fds : List Nat) :
    ∀ ctx : Context, UniqueNames ctx.registry →
      UniqueNames (rviProcessInput t ctx fds).2.registry := by
  induction fds with
  | nil => intro ctx h; exact h
  | cons fd rest ih =>
      intro ctx h
      simp only [rviProcessInput]
      exact ih _ (uniqueNames_processOne t ctx fd h)

theorem uniqueNames_register (t : Nat) (ctx : Context) (name : ServiceName)
    (cb : Nat) (data : String) (h : UniqueNames ctx.registry) :
    UniqueNames (rviRegisterService t ctx name cb data).2.registry := by
  simp only [rviRegisterService]
  split
  · exact uniqueNames_regInsert ctx.registry _ _ h
  · exact h

theorem uniqueNames_unregister (t : Nat) (ctx : Context) (name : ServiceName)
    (h : UniqueNames ctx.registry) :
    UniqueNames (rviUnregisterService t ctx name).2.registry := by
  simp only [rviUnregisterService]
  (repeat' split) <;> first | exact uniqueNames_filter ctx.registry _ h | exact h

theorem uniqueNames_invokeRemote (ctx : Context) (name : ServiceName)
    (params : String) (h : UniqueNames ctx.registry) :
    UniqueNames (rviInvokeRemoteService ctx name params).2.registry := by
  simp only [rviInvokeRemoteService]
  (repeat' split) <;> exact h

theorem uniqueNames_disconnect (ctx : Context) (fd : Nat)
    (h : UniqueNames ctx.registry) :
    UniqueNames (rviDisconnect ctx fd).2.registry := by
  simp only [rviDisconnect]
  (repeat' split) <;> first | exact uniqueNames_closeConn _ _ h | exact h

/-- C1: the registry holds at most one entry per fully-qualified name, every
operation (registration, unregistration, remote invoke, dispatch of one
message, processing of a descriptor list, disconnect) preserves that
uniqueness, and a later registration or announcement of a name replaces the
prior owner — last writer wins, and two sequential announcements of the same
name from the same connection leave exactly one entry with that owner. -/
theorem C1_registry_name_uniqueness (t : Nat) (ctx : Context)
    (name n : ServiceName) (cb fd : Nat) (data params : String)
    (fds : List Nat) (e : ServiceEntry) (cred : Option Credential)
    (h : UniqueNames ctx.registry)
    (hreg : covers ctx.ownCred t (qualify ctx.nodeId name) Direction.register = true)
    (hcov : coversOpt cred t name Direction.invoke = true) :
    ctx.registry.countP (fun p => p.1 == n) ≤ 1 ∧
    regLookup (regInsert ctx.registry name e) name = some e ∧
    UniqueNames (rviRegisterService t ctx name cb data).2.registry ∧
    UniqueNames (rviUnregisterService t ctx name).2.registry ∧
    UniqueNames (rviInvokeRemoteService ctx name params).2.registry ∧
    UniqueNames (rviProcessOne t ctx fd).2.registry ∧
    UniqueNames (rviProcessInput t ctx fds).2.registry ∧
    UniqueNames (rviDisconnect ctx fd).2.registry ∧
    regLookup (rviRegisterService t ctx name cb data).2.registry
      (qualify ctx.nodeId name) = some (.localEntry cb data) ∧
    regLookup (onRemoteAnnounce t ctx fd cred name).registry name =
      some (.remoteEntry fd) ∧
    regLookup
      (onRemoteAnnounce t (onRemoteAnnounce t ctx fd cred name) fd cred name).registry
      name = some (.remoteEntry fd) ∧
    (onRemoteAnnounce t (onRemoteAnnounce t ctx fd cred name) fd cred
        name).registry.countP (fun p => p.1 == name) = 1 := by
  have hannounce : ∀ ctx2 : Context,
      (onRemoteAnnounce t ctx2 fd cred name).registry =
        regInsert ctx2.registry name (.remoteEntry fd) := by
    intro ctx2
    simp [onRemoteAnnounce, hcov]
  have hregeq : (rviRegisterService t ctx name cb data).2.registry =
      regInsert ctx.registry (qualify ctx.nodeId name)
        (.localEntry cb data) := by
    simp [rviRegisterService, hreg]
  refine ⟨countP_le_one_of_uniqueNames ctx.registry h n,
    regLookup_regInsert_self ctx.registry name e,
    uniqueNames_register t ctx name cb data h,
    uniqueNames_unregister t ctx name h,
    uniqueNames_invokeRemote ctx name params h,
    uniqueNames_processOne t ctx fd h,
    uniqueNames_processInput t fds ctx h,
    uniqueNames_disconnect ctx fd h, ?_, ?_, ?_, ?_⟩
  · rw [hregeq]
    exact regLookup_regInsert_self _ _ _
  · rw [hannounce ctx]
    exact regLookup_regInsert_self _ _ _
  · rw [hannounce _]
    exact regLookup_regInsert_self _ _ _
  · rw [hannounce _]
    exact countP_regInsert_self _ _ _

/-- Witness for C1 at a concrete input: in the demo context, the own
credential covers registering `node1/diag/x` and the peer credential covers
invoking it, so the theorem applies; two sequential announcements of that
name from connection 5 leave exactly one entry owned by it. -/
theorem C1_witness :
    UniqueNames demoCtx.registry ∧
    covers demoCtx.ownCred 15 (qualify demoCtx.nodeId ["node1", "diag", "x"])
      Direction.register = true ∧
    coversOpt (some demoPeerCred) 15 ["node1", "diag", "x"]
      Direction.invoke = true ∧
    regLookup
      (onRemoteAnnounce 15
        (onRemoteAnnounce 15 demoCtx 5 (some demoPeerCred) ["node1", "diag", "x"])
        5 (some demoPeerCred) ["node1", "diag", "x"]).registry
      ["node1", "diag", "x"] = some (.remoteEntry 5) :=
  ⟨by decide, by decide, by decide,
   (C1_registry_name_uniqueness 15 demoCtx ["node1", "diag", "x"]
      ["node1", "svc"] 2 5 "d" "p" [5] (.localEntry 2 "d")
      (some demoPeerCred) (by decide) (by decide) (by decide)).2.2.2.2.2.2.2.2.2.2.1⟩

/-! ### Connection-targeting lemmas -/

theorem connFind_updateConn (ctx : Context) (fd : Nat) (g : Connection → Connection)
    (hg : ∀ c, (g c).fd = c.fd) :
    connFind (updateConn ctx fd g) fd =
      (connFind ctx fd).map (fun c => if c.fd == fd then g c else c) := by
  unfold connFind updateConn
  rw [List.find?_map]
  congr 1
  have hpred : ((fun c : Connection => c.fd == fd) ∘
      fun c => if (c.fd == fd) = true then g c else c) =
      fun c : Connection => c.fd == fd := by
    funext c
    simp only [Function.comp_apply]
    by_cases hc : (c.fd == fd) = true
    · rw [if_pos hc, hg c]
    · rw [if_neg hc]
  rw [hpred]

theorem mem_updateConn_of_ne (ctx : Context) (fd : Nat) (g : Connection → Connection)
    (c : Connection) (hc : c ∈ ctx.conns) (hne : c.fd ≠ fd) :
    c ∈ (updateConn ctx fd g).conns := by
  unfold updateConn
  refine List.mem_map.mpr ⟨c, hc, ?_⟩
  rw [if_neg]
  simp [hne]

theorem connFind_closeConn (ctx : Context) (fd : Nat) :
    connFind (closeConn ctx fd) fd =
      (connFind ctx fd).map
        (fun c => if c.fd == fd then { c with state := .Closed } else c) :=
  connFind_updateConn ctx fd _ (fun _ => rfl)

/-- C5: decoding a complete frame whose kind is unrecognized (or that lacks a
mandatory field) forces the owning connection to `Closed` with a no-command
error, while every other connection and every registry entry not owned by the
offender survive unchanged. -/
theorem C5_bad_frame_closes_only_offender (t : Nat) (ctx : Context) (fd : Nat)
    (conn : Connection) (f : Frame) (rest : List Frame)
    (hconn : connFind ctx fd = some conn)
    (hinbox : conn.inbox = f :: rest)
    (hdec : decodeFrame f = none) :
    (rviProcessOne t ctx fd).1 = rvi_status.RVI_ERR_NOCMD ∧
    connState (rviProcessOne t ctx fd).2 fd = some ConnState.Closed ∧
    (∀ c ∈ ctx.conns, c.fd ≠ fd → c ∈ (rviProcessOne t ctx fd).2.conns) ∧
    (∀ p ∈ ctx.registry, p.2 ≠ ServiceEntry.remoteEntry fd →
      p ∈ (rviProcessOne t ctx fd).2.registry) := by
  have hconnP : connFind { ctx with processed := ctx.processed ++ [fd] } fd =
      some conn := hconn
  have hconnQ : ctx.conns.find? (fun c => c.fd == fd) = some conn := hconn
  have hfd : (conn.fd == fd) = true :=
    List.find?_some (p := fun c => c.fd == fd) (a := conn) hconnQ
  have hR : rviProcessOne t ctx fd =
      (rvi_status.RVI_ERR_NOCMD,
        closeConn (updateConn { ctx with processed := ctx.processed ++ [fd] } fd
          (fun c => { c with inbox := rest })) fd) := by
    simp only [rviProcessOne, hconnP, hinbox, hdec]
  refine ⟨by rw [hR], ?_, ?_, ?_⟩
  · rw [hR]
    simp only [connState]
    rw [connFind_closeConn,
      connFind_updateConn _ fd
        (fun c => { fd := c.fd, state := c.state, cred := c.cred, inbox := rest })
        (fun _ => rfl),
      hconnP]
    have hfd' : conn.fd = fd := by simpa using hfd
    simp [hfd']
  · intro c hc hne
    rw [hR]
    exact mem_updateConn_of_ne _ fd _ c
      (mem_updateConn_of_ne _ fd _ c hc hne) hne
  · intro p hp hpne
    rw [hR]
    refine List.mem_filter.mpr ⟨hp, ?_⟩
    simp [hpne]

/-- Witness for C5 at a concrete input: connection 5 has a kind-9 frame
pending; processing descriptor 5 closes connection 5 and reports no-command,
and connection 6 (and the entries it owns) survive. -/
theorem C5_witness :
    connFind demoCtxTwo 5 =
      some { fd := 5, state := .Active, cred := some demoPeerCred,
             inbox := [{ kind := 9, sname := none, params := none, claims := none }] } ∧
    (rviProcessOne 15 demoCtxTwo 5).1 = rvi_status.RVI_ERR_NOCMD ∧
    connState (rviProcessOne 15 demoCtxTwo 5).2 5 = some ConnState.Closed := by
  have h := C5_bad_frame_closes_only_offender 15 demoCtxTwo 5
    { fd := 5, state := .Active, cred := some demoPeerCred,
      inbox := [{ kind := 9, sname := none, params := none, claims := none }] }
    { kind := 9, sname := none, params := none, claims := none } []
    (by decide) (by decide) (by decide)
  exact ⟨by decide, h.1, h.2.1⟩

/-! ### Dispatcher trace lemmas -/

theorem onRemoteAnnounce_processed (t : Nat) (ctx : Context) (fd : Nat)
    (cred : Option Credential) (name : ServiceName) :
    (onRemoteAnnounce t ctx fd cred name).processed = ctx.processed := by
  unfold onRemoteAnnounce
  split <;> rfl

theorem dispatch_processed (t : Nat) (ctx : Context) (fd : Nat)
    (cred : Option Credential) (st : ConnState) (m : Message) :
    (dispatch t ctx fd cred st m).2.processed = ctx.processed := by
  cases m <;> simp only [dispatch] <;> (repeat' split) <;>
    first
      | rfl
      | exact onRemoteAnnounce_processed _ _ _ _ _

theorem processOne_processed (t : Nat) (ctx : Context) (fd : Nat) :
    (rviProcessOne t ctx fd).2.processed = ctx.processed ++ [fd] := by
  simp only [rviProcessOne]
  (repeat' split) <;>
    first
      | rfl
      | exact dispatch_processed _ _ _ _ _ _

theorem processInput_snd_foldl (t : Nat) (fds : List Nat) :
    ∀ ctx : Context, (rviProcessInput t ctx fds).2 =
      fds.foldl (fun c fd => (rviProcessOne t c fd).2) ctx := by
  induction fds with
  | nil => intro ctx; rfl
  | cons fd rest ih =>
      intro ctx
      simp only [rviProcessInput, List.foldl_cons]
      exact ih _

theorem processInput_processed (t : Nat) (fds : List Nat) :
    ∀ ctx : Context, (rviProcessInput t ctx fds).2.processed =
      ctx.processed ++ fds := by
  induction fds with
  | nil => intro ctx; simp [rviProcessInput]
  | cons fd rest ih =>
      intro ctx
      simp only [rviProcessInput]
      rw [ih, processOne_processed]
      simp

theorem processInput_firstError (t : Nat) (fds : List Nat) :
    ∀ ctx : Context, (rviProcessInput t ctx fds).1 =
      firstError (stepStatuses t ctx fds) := by
  induction fds with
  | nil => intro ctx; rfl
  | cons fd rest ih =>
      intro ctx
      simp only [rviProcessInput, stepStatuses]
      by_cases hs : ((rviProcessOne t ctx fd).1 == rvi_status.RVI_OK) = true
      · rw [if_pos hs, ih]
        have hok : (rviProcessOne t ctx fd).1 = rvi_status.RVI_OK := by
          simpa using hs
        simp [firstError, List.find?_cons, hok]
      · rw [if_neg hs]
        have hne : ((rviProcessOne t ctx fd).1 == rvi_status.RVI_OK) = false := by
          simpa using hs
        simp [firstError, List.find?_cons, hne]

/-- C9: processing a caller-provided descriptor list applies the
per-connection step to each descriptor in order (the final context is the
left fold of `rviProcessOne`, and the processed-descriptor trace grows by
exactly the given list, one entry per descriptor), an error on one descriptor
does not stop the remaining descriptors from being attempted, and the
returned status is the first error among the per-descriptor statuses, or
success when there is none. -/
theorem C9_process_input_attempts_every_descriptor (t : Nat) (ctx : Context)
    (fds : List Nat) :
    (rviProcessInput t ctx fds).2 =
      fds.foldl (fun c fd => (rviProcessOne t c fd).2) ctx ∧
    (rviProcessInput t ctx fds).2.processed = ctx.processed ++ fds ∧
    (rviProcessInput t ctx fds).1 = firstError (stepStatuses t ctx fds) :=
  ⟨processInput_snd_foldl t fds ctx, processInput_processed t fds ctx,
   processInput_firstError t fds ctx⟩

/-! ### State-advance lemmas -/

theorem advances_refl (c : Connection) : Advances c c :=
  ⟨rfl, le_refl _, fun h => h⟩

theorem advances_trans {a b c : Connection} (h1 : Advances a b)
    (h2 : Advances b c) : Advances a c :=
  ⟨h2.1.trans h1.1, h1.2.1.trans h2.2.1, fun h => h2.2.2 (h1.2.2 h)⟩

theorem stateIdx_le_four (s : ConnState) : stateIdx s ≤ 4 := by
  cases s <;> simp [stateIdx]

theorem advances_to_closed (c : Connection) :
    Advances c { c with state := ConnState.Closed } :=
  ⟨rfl, stateIdx_le_four _, fun _ => rfl⟩

theorem forall₂_advances_self (l : List Connection) :
    List.Forall₂ Advances l l := by
  induction l with
  | nil => exact List.Forall₂.nil
  | cons a l ih => exact List.Forall₂.cons (advances_refl a) ih

theorem forall₂_advances_map (l : List Connection) (g : Connection → Connection)
    (hg : ∀ c ∈ l, Advances c (g c)) : List.Forall₂ Advances l (l.map g) := by
  induction l with
  | nil => exact List.Forall₂.nil
  | cons a l ih =>
      rw [List.map_cons]
      exact List.Forall₂.cons (hg a (by simp))
        (ih (fun c hc => hg c (by simp [hc])))

theorem forall₂_advances_trans {l1 l2 l3 : List Connection}
    (h1 : List.Forall₂ Advances l1 l2) (h2 : List.Forall₂ Advances l2 l3) :
    List.Forall₂ Advances l1 l3 := by
  induction h1 generalizing l3 with
  | nil => cases h2; exact List.Forall₂.nil
  | cons ha hl ih =>
      cases h2 with
      | cons hb hl2 => exact List.Forall₂.cons (advances_trans ha hb) (ih hl2)

theorem forall₂_advances_updateConn (ctx : Context) (fd : Nat)
    (g : Connection → Connection)
    (hg : ∀ c ∈ ctx.conns, (c.fd == fd) = true → Advances c (g c)) :
    List.Forall₂ Advances ctx.conns (updateConn ctx fd g).conns := by
  show List.Forall₂ Advances ctx.conns
    (ctx.conns.map (fun c => if (c.fd == fd) = true then g c else c))
  apply forall₂_advances_map
  intro c hc
  by_cases hb : (c.fd == fd) = true
  · rw [if_pos hb]
    exact hg c hc hb
  · rw [if_neg hb]
    exact advances_refl c

theorem forall₂_advances_closeConn (ctx : Context) (fd : Nat) :
    List.Forall₂ Advances ctx.conns (closeConn ctx fd).conns := by
  show List.Forall₂ Advances ctx.conns
    (updateConn ctx fd (fun c => { c with state := ConnState.Closed })).conns
  exact forall₂_advances_updateConn ctx fd _
    (fun c _ _ => advances_to_closed c)

theorem forall₂_advances_update_state (ctx : Context) (fd : Nat)
    (st st' : ConnState) (g : Connection → Connection)
    (hfd : ∀ c, (g c).fd = c.fd) (hstate : ∀ c, (g c).state = st')
    (hst : ∀ c ∈ ctx.conns, c.fd = fd → c.state = st)
    (hle : stateIdx st ≤ stateIdx st') (hcl : st ≠ ConnState.Closed) :
    List.Forall₂ Advances ctx.conns (updateConn ctx fd g).conns := by
  apply forall₂_advances_updateConn
  intro c hc hb
  have hcs : c.state = st := hst c hc (by simpa using hb)
  refine ⟨hfd c, ?_, ?_⟩
  · rw [hstate c, hcs]
    exact hle
  · intro hccl
    rw [hcs] at hccl
    exact absurd hccl hcl

theorem forall₂_advances_dispatch (t : Nat) (ctx : Context) (fd : Nat)
    (cred : Option Credential) (st : ConnState) (m : Message)
    (hst : ∀ c ∈ ctx.conns, c.fd = fd → c.state = st) :
    List.Forall₂ Advances ctx.conns (dispatch t ctx fd cred st m).2.conns := by
  cases m with
  | handshakeHello =>
      simp only [dispatch]
      split
      · rename_i h
        have hstH : st = ConnState.Handshaking := by simpa using h
        refine forall₂_advances_update_state ctx fd st ConnState.ExchangingCredentials
          (fun c => { c with state := ConnState.ExchangingCredentials })
          (fun _ => rfl) (fun _ => rfl) hst ?_ ?_
        · rw [hstH]
          decide
        · rw [hstH]
          decide
      · exact forall₂_advances_closeConn ctx fd
  | credentialExchange claims =>
      simp only [dispatch]
      split
      · rename_i h
        have hstE : st = ConnState.ExchangingCredentials := by simpa using h
        split
        · rename_i oc c0
          split
          · refine forall₂_advances_update_state ctx fd st ConnState.Active
              (fun cn => { cn with state := ConnState.Active, cred := some c0 })
              (fun _ => rfl) (fun _ => rfl) hst ?_ ?_
            · rw [hstE]
              decide
            · rw [hstE]
              decide
          · exact forall₂_advances_closeConn ctx fd
        · exact forall₂_advances_closeConn ctx fd
      · exact forall₂_advances_closeConn ctx fd
  | serviceAnnounce name =>
      simp only [dispatch]
      split
      · unfold onRemoteAnnounce
        split <;> exact forall₂_advances_self _
      · exact forall₂_advances_closeConn ctx fd
  | serviceUnannounce name =>
      simp only [dispatch]
      split
      · exact forall₂_advances_self _
      · exact forall₂_advances_closeConn ctx fd
  | invokeMsg name params =>
      simp only [dispatch]
      split
      · (repeat' split) <;> exact forall₂_advances_self _
      · exact forall₂_advances_closeConn ctx fd
  | ping => exact forall₂_advances_self _

theorem map_fd_eq_of_forall₂ {l l' : List Connection}
    (h : List.Forall₂ Advances l l') :
    l'.map Connection.fd = l.map Connection.fd := by
  induction h with
  | nil => rfl
  | cons ha _ ih => simp [List.map_cons, ih, ha.1]

theorem forall₂_advances_processOne (t : Nat) (ctx : Context) (fd : Nat)
    (hnd : (ctx.conns.map Connection.fd).Nodup) :
    List.Forall₂ Advances ctx.conns (rviProcessOne t ctx fd).2.conns := by
  rcases hc : connFind { ctx with processed := ctx.processed ++ [fd] } fd
    with _ | conn
  · have hR : rviProcessOne t ctx fd =
        (rvi_status.RVI_ERR_STREAMEND,
          { ctx with processed := ctx.processed ++ [fd] }) := by
      simp only [rviProcessOne, hc]
    rw [hR]
    exact forall₂_advances_self ctx.conns
  · have hconnQ : ctx.conns.find? (fun c => c.fd == fd) = some conn := hc
    have hmem : conn ∈ ctx.conns := List.mem_of_find?_eq_some hconnQ
    have hfd : conn.fd = fd := by
      simpa using List.find?_some (p := fun c => c.fd == fd) (a := conn) hconnQ
    rcases hib : conn.inbox with _ | ⟨f, rest⟩
    · have hR : rviProcessOne t ctx fd =
          (rvi_status.RVI_ERR_STREAMEND,
            closeConn { ctx with processed := ctx.processed ++ [fd] } fd) := by
        simp only [rviProcessOne, hc, hib]
      rw [hR]
      exact forall₂_advances_closeConn
        { ctx with processed := ctx.processed ++ [fd] } fd
    · have hstep1 : List.Forall₂ Advances ctx.conns
          (updateConn { ctx with processed := ctx.processed ++ [fd] } fd
            (fun c => { c with inbox := rest })).conns :=
        forall₂_advances_updateConn _ fd _
          (fun c _ _ => ⟨rfl, le_refl _, fun h => h⟩)
      have hst : ∀ c ∈ (updateConn { ctx with processed := ctx.processed ++ [fd] }
          fd (fun c => { c with inbox := rest })).conns,
          c.fd = fd → c.state = conn.state := by
        intro c hcU hcfd
        have hcU' : c ∈ ctx.conns.map
            (fun c => if (c.fd == fd) = true
              then { fd := c.fd, state := c.state, cred := c.cred, inbox := rest }
              else c) := hcU
        rcases List.mem_map.mp hcU' with ⟨c0, hc0, rfl⟩
        by_cases hb : (c0.fd == fd) = true
        · have hc0fd : c0.fd = fd := by simpa using hb
          have hc0conn : c0 = conn :=
            List.inj_on_of_nodup_map hnd hc0 hmem (by rw [hc0fd, hfd])
          rw [if_pos hb, hc0conn]
        · rw [if_neg hb] at hcfd ⊢
          exact absurd hcfd (by simpa using hb)
      rcases hdec : decodeFrame f with _ | m
      · have hR : rviProcessOne t ctx fd =
            (rvi_status.RVI_ERR_NOCMD,
              closeConn (updateConn { ctx with processed := ctx.processed ++ [fd] }
                fd (fun c => { c with inbox := rest })) fd) := by
          simp only [rviProcessOne, hc, hib, hdec]
        rw [hR]
        exact forall₂_advances_trans hstep1 (forall₂_advances_closeConn _ fd)
      · have hR : rviProcessOne t ctx fd =
            dispatch t (updateConn { ctx with processed := ctx.processed ++ [fd] }
              fd (fun c => { c with inbox := rest })) fd conn.cred conn.state m := by
          simp only [rviProcessOne, hc, hib, hdec]
        rw [hR]
        exact forall₂_advances_trans hstep1
          (forall₂_advances_dispatch t _ fd conn.cred conn.state m hst)

theorem forall₂_advances_processInput (t : Nat) (fds : List Nat) :
    ∀ ctx : Context, (ctx.conns.map Connection.fd).Nodup →
      List.Forall₂ Advances ctx.conns (rviProcessInput t ctx fds).2.conns := by
  induction fds with
  | nil => intro ctx _; exact forall₂_advances_self ctx.conns
  | cons fd rest ih =>
      intro ctx hnd
      simp only [rviProcessInput]
      have h1 := forall₂_advances_processOne t ctx fd hnd
      have hpres := map_fd_eq_of_forall₂ h1
      exact forall₂_advances_trans h1 (ih _ (hpres ▸ hnd))

theorem forall₂_advances_disconnect (ctx : Context) (fd : Nat) :
    List.Forall₂ Advances ctx.conns (rviDisconnect ctx fd).2.conns := by
  simp only [rviDisconnect]
  (repeat' split) <;>
    first
      | exact forall₂_advances_closeConn _ _
      | exact forall₂_advances_self _

/-- C7: each connection is in exactly one of the five states (the state is a
single value of the `ConnState` type); every allowed transition strictly
advances the state in the order Connecting, Handshaking,
ExchangingCredentials, Active, Closed; no transition leaves `Closed`; and the
executable operations (processing one descriptor, processing a descriptor
list, disconnecting) only ever move each connection forward in that order,
never backward and never out of `Closed`. -/
theorem C7_connection_states_monotone (s s' : ConnState) (t : Nat)
    (ctx : Context) (fd : Nat) (fds : List Nat)
    (hstep : stepAllowed s s' = true)
    (hnd : (ctx.conns.map Connection.fd).Nodup) :
    stateIdx s < stateIdx s' ∧
    stepAllowed ConnState.Closed s' = false ∧
    List.Forall₂ Advances ctx.conns (rviProcessOne t ctx fd).2.conns ∧
    List.Forall₂ Advances ctx.conns (rviProcessInput t ctx fds).2.conns ∧
    List.Forall₂ Advances ctx.conns (rviDisconnect ctx fd).2.conns := by
  refine ⟨?_, ?_, forall₂_advances_processOne t ctx fd hnd,
    forall₂_advances_processInput t fds ctx hnd,
    forall₂_advances_disconnect ctx fd⟩
  · revert hstep
    cases s <;> cases s' <;> decide
  · cases s' <;> rfl

/-- Witness for C7 at a concrete input: the step from `Connecting` to
`Handshaking` is allowed and strictly advances; the demo context with two
connections has pairwise-distinct descriptors, so processing descriptors 5
and 6 only moves its connections forward. -/
theorem C7_witness :
    stepAllowed ConnState.Connecting ConnState.Handshaking = true ∧
    (demoCtxTwo.conns.map Connection.fd).Nodup ∧
    stateIdx ConnState.Connecting < stateIdx ConnState.Handshaking ∧
    List.Forall₂ Advances demoCtxTwo.conns
      (rviProcessInput 15 demoCtxTwo [5, 6]).2.conns := by
  have h := C7_connection_states_monotone ConnState.Connecting
    ConnState.Handshaking 15 demoCtxTwo 5 [5, 6] (by decide) (by decide)
  exact ⟨by decide, by decide, h.1, h.2.2.2.1⟩
